import Mathlib

/-!
Verification of the engagement-aggregation and classification pipeline of the
HubSpot briefing service (src/main.py). The network layer is modeled by
passing the already-fetched raw records as explicit inputs: a pagination loop
that runs to exhaustion is modeled as the concatenation of all its pages, and
the local timezone used by datetime.fromtimestamp is modeled as UTC (no claim
depends on the zone offset). Machine floats appear only as exact decimal
literals parsed from strings, modeled as rationals. All definitions are
structural recursions so that concrete runs reduce inside the kernel.
-/

namespace HubspotBrief

/-! ## Python-style string primitives -/

/-- Truthiness of an optional string, as Python evaluates the result of
dict.get in a boolean position: None and the empty string are falsy. -/
def truthy : Option String → Bool
  | none => false
  | some s => !s.data.isEmpty

/-- Model of the Python expression a or b over optional strings. -/
def pyOr (a b : Option String) : Option String :=
  if truthy a then a else b

/-- Model of the Python expression a or dflt, where dflt is a plain string. -/
def pyOrStr (a : Option String) (dflt : String) : String :=
  if truthy a then a.getD "" else dflt

/-- Whitespace characters removed by the Python str.strip default. -/
def isPySpace (c : Char) : Bool :=
  c = ' ' || c = '\t' || c = '\n' || c = '\r' || c = '\x0b' || c = '\x0c'

/-- Model of Python str.strip with no arguments. -/
def pyStrip (l : List Char) : List Char :=
  ((l.dropWhile isPySpace).reverse.dropWhile isPySpace).reverse

/-- One pass of the regex sub of the pattern matching a less-than sign, one or
more characters other than greater-than, then a greater-than sign (main.py
line 109). Fuel makes the recursion structural; each step consumes at least
one character, so fuel equal to the input length is always enough. -/
def stripTagsAux : Nat → List Char → List Char
  | 0, l => l
  | _ + 1, [] => []
  | fuel + 1, c :: rest =>
    if c = '<' then
      match rest.dropWhile (fun d => d ≠ '>') with
      | '>' :: tail =>
        if (rest.takeWhile (fun d => d ≠ '>')).isEmpty then c :: stripTagsAux fuel rest
        else stripTagsAux fuel tail
      | _ => c :: stripTagsAux fuel rest
    else c :: stripTagsAux fuel rest

/-- strip_html (main.py lines 108-109): remove tag markup, then strip
whitespace. The argument is optional because callers pass possibly-missing
metadata values; the source guards with the expression text or the empty
string. -/
def strip_html (optText : Option String) : String :=
  let l := (optText.getD "").data
  String.mk (pyStrip (stripTagsAux l.length l))

/-- Model of Python str.lower for the ASCII range used by engagement types
and stage labels. -/
def pyLower (s : String) : String :=
  String.mk (s.data.map Char.toLower)

/-- Helper for pyTitle: capitalize the first alphabetic character of each
word, lowercase the rest, tracking whether the previous char was alphabetic. -/
def pyTitleAux : List Char → Bool → List Char
  | [], _ => []
  | c :: t, prevAlpha =>
    (if c.isAlpha then (if prevAlpha then c.toLower else c.toUpper) else c)
      :: pyTitleAux t c.isAlpha

/-- Model of Python str.title, used on engagement types (main.py line 265). -/
def pyTitle (s : String) : String :=
  String.mk (pyTitleAux s.data false)

/-- Whether the second list starts with the first list. -/
def startsWithCh : List Char → List Char → Bool
  | [], _ => true
  | _ :: _, [] => false
  | a :: as, b :: bs => a == b && startsWithCh as bs

/-- Whether the first list has the second as a contiguous segment. -/
def containsSub : List Char → List Char → Bool
  | [], needle => needle.isEmpty
  | h :: t, needle => startsWithCh needle (h :: t) || containsSub t needle

/-- Model of the Python expression needle in hay over strings. -/
def pyIn (needle hay : String) : Bool :=
  containsSub hay.data needle.data

/-! ## Engagement metadata and the extraction fallback chains -/

/-- The metadata dictionary fields consulted by the two extractors
(main.py lines 111-124). A missing key is none. -/
structure Metadata where
  subject : Option String
  emailSubject : Option String
  bodyPreview : Option String
  body : Option String
  text : Option String
  notes : Option String
  title : Option String
deriving DecidableEq

/-- A metadata dictionary with every key absent. -/
def mdEmpty : Metadata := ⟨none, none, none, none, none, none, none⟩

/-- extract_email_subject (main.py lines 111-119). -/
def extract_email_subject (metadata : Metadata) : String :=
  let subj := pyOr metadata.subject metadata.emailSubject
  if truthy subj && !(pyStrip (subj.getD "").data).isEmpty then
    strip_html subj
  else
    let fallback := pyOrStr (pyOr (pyOr metadata.bodyPreview metadata.body) metadata.text) ""
    let cleaned := strip_html (some fallback)
    let snippet := String.mk (cleaned.data.take 60)
    if snippet = "" then "(no subject)" else snippet

/-- extract_call_outcome (main.py lines 121-124). -/
def extract_call_outcome (metadata : Metadata) : String :=
  let notes := pyOr (pyOr metadata.body metadata.notes) metadata.title
  let cleaned := strip_html notes
  if cleaned = "" then "(no outcome logged)" else cleaned

/-! ## Datetimes -/

/-- A Python datetime, reduced to the fields that the pipeline compares and
renders: the civil date plus the millisecond offset within the day. The
datetime order is the lexicographic order on these fields. -/
structure PyDatetime where
  year : Nat
  month : Nat
  day : Nat
  msOfDay : Nat
deriving DecidableEq

/-- datetime.min: year 1, month 1, day 1, midnight. -/
def PyDatetime.min : PyDatetime := ⟨1, 1, 1, 0⟩

/-- datetime.fromtimestamp on a nonnegative millisecond timestamp, with the
local zone modeled as UTC. The civil date is computed by the standard
era/day-of-era algorithm for the proleptic Gregorian calendar. -/
def PyDatetime.fromtimestamp (ts : Nat) : PyDatetime :=
  let days := ts / 86400000
  let z := days + 719468
  let era := z / 146097
  let doe := z % 146097
  let yoe := (doe - doe / 1460 + doe / 36524 - doe / 146096) / 365
  let y := yoe + era * 400
  let doy := doe - (365 * yoe + yoe / 4 - yoe / 100)
  let mp := (5 * doy + 2) / 153
  let dd := doy - (153 * mp + 2) / 5 + 1
  let m := if mp < 10 then mp + 3 else mp - 9
  { year := if m ≤ 2 then y + 1 else y, month := m, day := dd, msOfDay := ts % 86400000 }

/-- Lexicographic less-or-equal on datetimes. -/
def pdLe (a b : PyDatetime) : Bool :=
  a.year < b.year || (a.year == b.year && (a.month < b.month || (a.month == b.month &&
    (a.day < b.day || (a.day == b.day && a.msOfDay ≤ b.msOfDay)))))

/-- The createdAt expression of main.py lines 266 and 297: a falsy timestamp
(absent, or the integer zero) yields datetime.min, otherwise the timestamp is
converted. -/
def mkCreatedAt : Option Nat → PyDatetime
  | none => PyDatetime.min
  | some ts => if ts = 0 then PyDatetime.min else PyDatetime.fromtimestamp ts

/-! ## Engagement records and the aggregation pipeline -/

/-- A raw engagement as delivered by one page of the engagements endpoint:
the identifier (already as a string), the type with its original casing, the
optional millisecond timestamp, and the metadata dictionary. -/
structure RawEng where
  id : String
  type : String
  timestamp : Option Nat
  meta : Metadata
deriving DecidableEq

/-- The EngagementInfo model (main.py lines 77-81). -/
structure EngagementInfo where
  id : String
  type : String
  createdAt : PyDatetime
  subject : String
deriving DecidableEq

/-- Construction of one EngagementInfo from a raw record (main.py
lines 263-268). -/
def mkEngInfo (e : RawEng) (subject : String) : EngagementInfo :=
  { id := e.id, type := pyTitle e.type, createdAt := mkCreatedAt e.timestamp, subject := subject }

/-- The company-scope collection loop (main.py lines 254-268): keep email and
call kinds, extract the subject for emails and the outcome for calls. -/
def processCompanyEng (raws : List RawEng) : List EngagementInfo :=
  raws.filterMap fun e =>
    if pyLower e.type = "email" || pyLower e.type = "call" then
      some (mkEngInfo e
        (if pyLower e.type = "email" then extract_email_subject e.meta
         else extract_call_outcome e.meta))
    else none

/-- The contact-scope collection loop (main.py lines 285-299): keep only call
kinds. -/
def processContactEng (raws : List RawEng) : List EngagementInfo :=
  raws.filterMap fun e =>
    if pyLower e.type = "call" then some (mkEngInfo e (extract_call_outcome e.meta)) else none

/-- The raw data reachable from one get_recent_engagements run: the pages of
the company-scope feed concatenated, then one concatenated feed per
associated contact, in association order. -/
structure EngInput where
  companyRaws : List RawEng
  contactRaws : List (List RawEng)
deriving DecidableEq

/-- The engs list right before deduplication (company scope first, then each
contact scope in order). -/
def allEngs (inp : EngInput) : List EngagementInfo :=
  processCompanyEng inp.companyRaws ++ (inp.contactRaws.map processContactEng).flatten

/-- One key assignment of the Python dict comprehension keyed by engagement
id: an existing key keeps its position and takes the new value, a new key is
appended. -/
def insertDict (d : List (String × EngagementInfo)) (e : EngagementInfo) :
    List (String × EngagementInfo) :=
  if d.any (fun p => p.1 = e.id) then
    d.map (fun p => if p.1 = e.id then (p.1, e) else p)
  else d ++ [(e.id, e)]

/-- The Python dict built by the comprehension keyed on e.id (main.py
line 304), as its insertion-ordered association list. -/
def pyDict (engs : List EngagementInfo) : List (String × EngagementInfo) :=
  engs.foldl insertDict []

/-- The values view of that dict: main.py line 304. -/
def dedupValues (engs : List EngagementInfo) : List EngagementInfo :=
  (pyDict engs).map Prod.snd

/-- The sort relation of main.py line 305: descending by createdAt. Python
sorted with reverse set is a stable sort, so ties keep arrival order; the
stable insertionSort over this total preorder is extensionally the same
function. -/
def engGE (a b : EngagementInfo) : Prop :=
  pdLe b.createdAt a.createdAt = true

instance decEngGE : DecidableRel engGE :=
  fun _ _ => inferInstanceAs (Decidable (_ = true))

/-- get_recent_engagements (main.py lines 239-306) given the fetched raw
data: dedup by id, sort descending by createdAt, keep Email and Call kinds,
global cap of 20. -/
def get_recent_engagements (inp : EngInput) : List EngagementInfo :=
  let engs := dedupValues (allEngs inp)
  let sortedEngs := List.insertionSort engGE engs
  (sortedEngs.filter (fun e => decide (e.type = "Email") || decide (e.type = "Call"))).take 20

/-! ## Digest rendering -/

/-- Left-pad a natural number with zeros to the given width, as the strftime
numeric directives do. -/
def padNum (width n : Nat) : String :=
  String.mk (List.replicate (width - (toString n).data.length) '0' ++ (toString n).data)

/-- strftime with the format of main.py lines 314 and 317: four-digit year,
two-digit month, two-digit day, dash separated. -/
def strftimeYmd (d : PyDatetime) : String :=
  padNum 4 d.year ++ "-" ++ padNum 2 d.month ++ "-" ++ padNum 2 d.day

/-- One rendered digest line (main.py lines 314 and 317). -/
def digestLine (n : Nat) (e : EngagementInfo) : String :=
  toString n ++ ". **" ++ strftimeYmd e.createdAt ++ "** – " ++ e.subject

/-- The result shape of format_engagement_summary. -/
structure EngDigest where
  emails : List String
  calls : List String
deriving DecidableEq

/-- The loop of format_engagement_summary (main.py lines 311-319): per-kind
counters, a line appended while the kind counter is below the limit, and a
break once both counters reach the limit. -/
def formatLoop (limit : Nat) : List EngagementInfo → Nat → Nat → List String → List String → EngDigest
  | [], _, _, emails, calls => ⟨emails, calls⟩
  | e :: rest, cntE, cntC, emails, calls =>
    if e.type = "Email" ∧ cntE < limit then
      if limit ≤ cntE + 1 ∧ limit ≤ cntC then ⟨emails ++ [digestLine (cntE + 1) e], calls⟩
      else formatLoop limit rest (cntE + 1) cntC (emails ++ [digestLine (cntE + 1) e]) calls
    else if e.type = "Call" ∧ cntC < limit then
      if limit ≤ cntE ∧ limit ≤ cntC + 1 then ⟨emails, calls ++ [digestLine (cntC + 1) e]⟩
      else formatLoop limit rest cntE (cntC + 1) emails (calls ++ [digestLine (cntC + 1) e])
    else
      if limit ≤ cntE ∧ limit ≤ cntC then ⟨emails, calls⟩
      else formatLoop limit rest cntE cntC emails calls

/-- format_engagement_summary (main.py lines 308-320). -/
def format_engagement_summary (engs : List EngagementInfo) (limit : Nat) : EngDigest :=
  formatLoop limit engs 0 0 [] []

/-- Sequential numbering of digest lines starting after a given count, used
to state what the loop produces. -/
def numberLines (start : Nat) : List EngagementInfo → List String
  | [] => []
  | e :: t => digestLine (start + 1) e :: numberLines (start + 1) t

/-! ## Deals and classification -/

/-- The DealInfo model (main.py lines 70-75); the amount is the exact decimal
value of the parsed string. -/
structure DealInfo where
  id : String
  name : String
  amount : ℚ
  stage : String
  closedate : Option PyDatetime
deriving DecidableEq

/-- The five deal buckets built by the brief handler. -/
structure DealBuckets where
  won : List DealInfo
  lost : List DealInfo
  expansion : List DealInfo
  resurrected : List DealInfo
  active : List DealInfo
deriving DecidableEq

/-- One iteration of the classification loop in brief (main.py
lines 335-341): lowercase the resolved stage label and test the four
substrings in priority order, else the deal is active. -/
def classifyStep (b : DealBuckets) (d : DealInfo) : DealBuckets :=
  let st := pyLower d.stage
  if pyIn "closed won" st then { b with won := b.won ++ [d] }
  else if pyIn "closed lost" st then { b with lost := b.lost ++ [d] }
  else if pyIn "expansion" st then { b with expansion := b.expansion ++ [d] }
  else if pyIn "resurrected" st then { b with resurrected := b.resurrected ++ [d] }
  else { b with active := b.active ++ [d] }

/-- The classification loop of brief (main.py lines 334-341). -/
def classifyDeals (deals : List DealInfo) : DealBuckets :=
  deals.foldl classifyStep ⟨[], [], [], [], []⟩

/-- Bucket membership predicates, encoding the priority of the if chain. -/
def isWonDeal (d : DealInfo) : Bool := pyIn "closed won" (pyLower d.stage)

def isLostDeal (d : DealInfo) : Bool :=
  !isWonDeal d && pyIn "closed lost" (pyLower d.stage)

def isExpansionDeal (d : DealInfo) : Bool :=
  !isWonDeal d && !pyIn "closed lost" (pyLower d.stage) && pyIn "expansion" (pyLower d.stage)

def isResurrectedDeal (d : DealInfo) : Bool :=
  !isWonDeal d && !pyIn "closed lost" (pyLower d.stage) && !pyIn "expansion" (pyLower d.stage) &&
    pyIn "resurrected" (pyLower d.stage)

def isActiveDeal (d : DealInfo) : Bool :=
  !isWonDeal d && !pyIn "closed lost" (pyLower d.stage) && !pyIn "expansion" (pyLower d.stage) &&
    !pyIn "resurrected" (pyLower d.stage)

/-! ## Amount parsing -/

/-- Remove every comma: the replace call of main.py line 227. -/
def stripCommas (s : String) : String :=
  String.mk (s.data.filter (fun c => c ≠ ','))

/-- Value of a digit run, most significant first. -/
def digitsToNat (l : List Char) : Nat :=
  l.foldl (fun a c => a * 10 + (c.toNat - 48)) 0

/-- Unsigned decimal literal: digits with at most one dot and at least one
digit. The result is the scaled mantissa and the count of fractional
digits. -/
def pyFloatRawCore (l : List Char) : Option (Nat × Nat) :=
  let intPart := l.takeWhile Char.isDigit
  let rest := l.dropWhile Char.isDigit
  match rest with
  | [] => if intPart.isEmpty then none else some (digitsToNat intPart, 0)
  | '.' :: frac =>
    if frac.all Char.isDigit && !(intPart.isEmpty && frac.isEmpty) then
      some (digitsToNat intPart * 10 ^ frac.length + digitsToNat frac, frac.length)
    else none
  | _ => none

/-- Signed decimal literal. -/
def pyFloatRaw (l : List Char) : Option (Bool × Nat × Nat) :=
  match l with
  | '-' :: rest => (pyFloatRawCore rest).map (fun p => (true, p))
  | '+' :: rest => (pyFloatRawCore rest).map (fun p => (false, p))
  | _ => (pyFloatRawCore l).map (fun p => (false, p))

/-- Exact value of a parsed decimal literal. -/
def ratOfRaw : Bool × Nat × Nat → ℚ
  | (neg, m, k) => (if neg then -(m : ℚ) else (m : ℚ)) / 10 ^ k

/-- Model of the Python float constructor on plain decimal literals (optional
sign, digits, at most one dot). Exotic accepted forms (exponents, inf, nan,
underscores) are outside the modeled domain; the pipeline feeds it CRM amount
strings, which are plain decimals or garbage. -/
def pyFloat (s : String) : Option ℚ :=
  (pyFloatRaw s.data).map ratOfRaw

/-- The amount parsing of get_all_deals_for_company (main.py lines 226-229):
take the raw amount string (absent defaults to the string zero), remove
commas, strip whitespace, parse as float; any parse failure yields 0.0
instead of raising. -/
def parseAmount (raw : Option String) : ℚ :=
  match pyFloat (String.mk (pyStrip (stripCommas (raw.getD "0")).data)) with
  | some q => q
  | none => 0

/-! ## Contact resolution for the brief handler -/

/-- A raw contact search result: the properties consulted by
get_contact_by_email. -/
structure RawContact where
  id : String
  firstname : Option String
  lastname : Option String
  email : Option String
  jobtitle : Option String
deriving DecidableEq

/-- The ContactInfo model (main.py lines 63-68). -/
structure ContactInfo where
  id : String
  firstname : String
  lastname : String
  email : Option String
  jobtitle : Option String
deriving DecidableEq

/-- The two failures the contact path can raise: the 404 HTTPException and
the ValueError guard. -/
inductive BriefError where
  | notFound (msg : String)
  | invalidInput (msg : String)
deriving DecidableEq

/-- The contact search by exact email (main.py lines 141-149): the request
carries limit 1, so at most the first matching record returns. -/
def searchByEmail (db : List RawContact) (email : String) : List RawContact :=
  (db.filter (fun c => c.email == some email)).take 1

/-- get_contact_by_email (main.py lines 137-159). -/
def get_contact_by_email (db : List RawContact) (email : String) :
    Except BriefError ContactInfo :=
  if email.data.isEmpty then
    .error (.invalidInput "Email must be provided to get_contact_by_email")
  else
    match searchByEmail db email with
    | [] => .error (.notFound "Contact not found")
    | c :: _ =>
      .ok { id := c.id, firstname := pyOrStr c.firstname "", lastname := pyOrStr c.lastname "",
            email := c.email, jobtitle := some (pyOrStr c.jobtitle "") }

/-- The placeholder contact built when no email is supplied (main.py
line 327). -/
def placeholderContact : ContactInfo :=
  { id := "", firstname := "", lastname := "", email := some "", jobtitle := some "" }

/-- The contact-resolution step of the brief handler (main.py lines 323-327):
a truthy email goes through the lookup, otherwise the placeholder is used
without consulting the database. -/
def briefContact (db : List RawContact) (email : Option String) :
    Except BriefError ContactInfo :=
  if truthy email then get_contact_by_email db (email.getD "")
  else .ok placeholderContact

/-! ## Order lemmas for datetimes -/

theorem pdLe_iff (a b : PyDatetime) : pdLe a b = true ↔
    (a.year < b.year ∨ (a.year = b.year ∧ (a.month < b.month ∨ (a.month = b.month ∧
      (a.day < b.day ∨ (a.day = b.day ∧ a.msOfDay ≤ b.msOfDay)))))) := by
  simp [pdLe]

theorem pdLe_refl (a : PyDatetime) : pdLe a a = true := by
  simp [pdLe_iff]

theorem pdLe_total (a b : PyDatetime) : pdLe a b = true ∨ pdLe b a = true := by
  simp only [pdLe_iff]; omega

theorem pdLe_trans {a b c : PyDatetime} (h1 : pdLe a b = true) (h2 : pdLe b c = true) :
    pdLe a c = true := by
  rw [pdLe_iff] at h1 h2 ⊢; omega

instance engGE_total : IsTotal EngagementInfo engGE :=
  ⟨fun a b => pdLe_total b.createdAt a.createdAt⟩

instance engGE_trans : IsTrans EngagementInfo engGE :=
  ⟨fun _ _ _ hab hbc => pdLe_trans hbc hab⟩

theorem fromtimestamp_year_ge (ts : Nat) : 1600 ≤ (PyDatetime.fromtimestamp ts).year := by
  have h4 : 4 ≤ (ts / 86400000 + 719468) / 146097 := by omega
  have h1600 : 1600 ≤ (ts / 86400000 + 719468) / 146097 * 400 := by
    have := Nat.mul_le_mul_right 400 h4
    simpa using this
  unfold PyDatetime.fromtimestamp
  dsimp only
  split <;> split
  all_goals
    first
    | exact le_trans h1600 (le_trans (Nat.le_add_left _ _) (Nat.le_succ _))
    | exact le_trans h1600 (Nat.le_add_left _ _)

theorem pdLe_fromtimestamp_min (ts : Nat) :
    pdLe (PyDatetime.fromtimestamp ts) PyDatetime.min = false := by
  have hy := fromtimestamp_year_ge ts
  rw [Bool.eq_false_iff]
  intro h
  rw [pdLe_iff] at h
  simp only [PyDatetime.min] at h
  omega

theorem pdLe_min_fromtimestamp (ts : Nat) :
    pdLe PyDatetime.min (PyDatetime.fromtimestamp ts) = true := by
  have hy := fromtimestamp_year_ge ts
  rw [pdLe_iff]
  left
  simp only [PyDatetime.min]
  omega

theorem pdLe_min_mkCreatedAt (ots : Option Nat) :
    pdLe PyDatetime.min (mkCreatedAt ots) = true := by
  cases ots with
  | none => exact pdLe_refl _
  | some ts =>
    by_cases hts : ts = 0
    · simp only [mkCreatedAt, if_pos hts]
      exact pdLe_refl _
    · simp only [mkCreatedAt, if_neg hts]
      exact pdLe_min_fromtimestamp ts

theorem mkCreatedAt_eq_min {ots : Option Nat} (h : pdLe (mkCreatedAt ots) PyDatetime.min = true) :
    mkCreatedAt ots = PyDatetime.min := by
  cases ots with
  | none => rfl
  | some ts =>
    by_cases hts : ts = 0
    · simp only [mkCreatedAt, if_pos hts]
    · simp only [mkCreatedAt, if_neg hts] at h ⊢
      rw [pdLe_fromtimestamp_min ts] at h
      cases h

/-! ## Dict deduplication lemmas -/

theorem pyDict_append (l : List EngagementInfo) (e : EngagementInfo) :
    pyDict (l ++ [e]) = insertDict (pyDict l) e := by
  simp [pyDict, List.foldl_append]

theorem insertDict_map_fst (d : List (String × EngagementInfo)) (e : EngagementInfo) :
    (d.map (fun p => if p.1 = e.id then (p.1, e) else p)).map Prod.fst = d.map Prod.fst := by
  rw [List.map_map]
  apply List.map_congr_left
  intro p _
  by_cases hc : p.1 = e.id
  · simp [hc]
  · simp [hc]

theorem pyDict_fst_eq_id (l : List EngagementInfo) : ∀ p ∈ pyDict l, p.2.id = p.1 := by
  induction l using List.reverseRecOn with
  | nil => intro p hp; simp [pyDict] at hp
  | append_singleton l e ih =>
    intro p hp
    rw [pyDict_append] at hp
    unfold insertDict at hp
    split at hp
    · rcases List.mem_map.mp hp with ⟨q, hq, hpq⟩
      by_cases hqe : q.1 = e.id
      · rw [if_pos hqe] at hpq
        subst hpq
        exact hqe.symm
      · rw [if_neg hqe] at hpq
        subst hpq
        exact ih q hq
    · rcases List.mem_append.mp hp with h | h
      · exact ih p h
      · simp only [List.mem_singleton] at h
        subst h
        rfl

theorem pyDict_keys_nodup (l : List EngagementInfo) : ((pyDict l).map Prod.fst).Nodup := by
  induction l using List.reverseRecOn with
  | nil => simp [pyDict]
  | append_singleton l e ih =>
    rw [pyDict_append]
    unfold insertDict
    split
    · rename_i h
      rw [insertDict_map_fst]
      exact ih
    · rename_i h
      have hnot : e.id ∉ (pyDict l).map Prod.fst := by
        intro hmem
        rcases List.mem_map.mp hmem with ⟨p, hp, hpe⟩
        exact h (List.any_eq_true.mpr ⟨p, hp, by simp [hpe]⟩)
      rw [List.map_append]
      simp [List.nodup_append, ih, hnot]

theorem pyDict_mem_keys (l : List EngagementInfo) (k : String) :
    (k ∈ (pyDict l).map Prod.fst) ↔ k ∈ l.map (fun e => e.id) := by
  induction l using List.reverseRecOn with
  | nil => simp [pyDict]
  | append_singleton l e ih =>
    rw [pyDict_append]
    unfold insertDict
    split
    · rename_i h
      rw [insertDict_map_fst]
      rw [List.map_append, List.mem_append]
      constructor
      · intro hk
        exact Or.inl (ih.mp hk)
      · intro hk
        rcases hk with hk | hk
        · exact ih.mpr hk
        · simp only [List.map_cons, List.map_nil, List.mem_singleton] at hk
          subst hk
          rcases List.any_eq_true.mp h with ⟨p, hp, hpe⟩
          simp only [decide_eq_true_eq] at hpe
          exact List.mem_map.mpr ⟨p, hp, hpe⟩
    · rw [List.map_append, List.map_append, List.mem_append, List.mem_append]
      simp only [List.map_cons, List.map_nil]
      rw [ih]

theorem pyDict_snd_mem (l : List EngagementInfo) : ∀ p ∈ pyDict l, p.2 ∈ l := by
  induction l using List.reverseRecOn with
  | nil => intro p hp; simp [pyDict] at hp
  | append_singleton l e ih =>
    intro p hp
    rw [pyDict_append] at hp
    unfold insertDict at hp
    split at hp
    · rcases List.mem_map.mp hp with ⟨q, hq, hpq⟩
      by_cases hqe : q.1 = e.id
      · rw [if_pos hqe] at hpq
        subst hpq
        exact List.mem_append.mpr (Or.inr (List.mem_singleton.mpr rfl))
      · rw [if_neg hqe] at hpq
        subst hpq
        exact List.mem_append.mpr (Or.inl (ih q hq))
    · rcases List.mem_append.mp hp with h | h
      · exact List.mem_append.mpr (Or.inl (ih p h))
      · simp only [List.mem_singleton] at h
        subst h
        exact List.mem_append.mpr (Or.inr (List.mem_singleton.mpr rfl))

theorem pyDict_last_wins (l : List EngagementInfo) : ∀ p ∈ pyDict l,
    (l.filter (fun x => decide (x.id = p.1))).getLast? = some p.2 := by
  induction l using List.reverseRecOn with
  | nil => intro p hp; simp [pyDict] at hp
  | append_singleton l e ih =>
    intro p hp
    rw [pyDict_append] at hp
    rw [List.filter_append]
    unfold insertDict at hp
    split at hp
    · rcases List.mem_map.mp hp with ⟨q, hq, hpq⟩
      by_cases hqe : q.1 = e.id
      · rw [if_pos hqe] at hpq
        subst hpq
        have he : (List.filter (fun x => decide (x.id = (q.1, e).1)) [e]) = [e] := by
          simp [List.filter, hqe]
        rw [he]
        exact List.getLast?_concat _
      · rw [if_neg hqe] at hpq
        subst hpq
        have he : (List.filter (fun x => decide (x.id = q.1)) [e]) = [] := by
          have hd : decide (e.id = q.1) = false := decide_eq_false (fun hc => hqe hc.symm)
          simp [List.filter, hd]
        rw [he, List.append_nil]
        exact ih q hq
    · rename_i h
      rcases List.mem_append.mp hp with hmem | hmem
      · have hne : p.1 ≠ e.id := by
          intro hc
          exact h (List.any_eq_true.mpr ⟨p, hmem, by simp [hc]⟩)
        have he : (List.filter (fun x => decide (x.id = p.1)) [e]) = [] := by
          have hd : decide (e.id = p.1) = false := decide_eq_false (fun hc => hne hc.symm)
          simp [List.filter, hd]
        rw [he, List.append_nil]
        exact ih p hmem
      · simp only [List.mem_singleton] at hmem
        subst hmem
        have he : (List.filter (fun x => decide (x.id = (e.id, e).1)) [e]) = [e] := by
          simp [List.filter]
        rw [he]
        exact List.getLast?_concat _

theorem dedup_ids_eq_keys (l : List EngagementInfo) :
    (dedupValues l).map (fun e => e.id) = (pyDict l).map Prod.fst := by
  unfold dedupValues
  rw [List.map_map]
  apply List.map_congr_left
  intro p hp
  exact pyDict_fst_eq_id l p hp

theorem dedup_mem (l : List EngagementInfo) : ∀ e ∈ dedupValues l, e ∈ l := by
  intro e he
  rcases List.mem_map.mp he with ⟨p, hp, hpe⟩
  subst hpe
  exact pyDict_snd_mem l p hp

/-! ## Stability of the sort on ties -/

theorem engGE_of_eq {a b : EngagementInfo} (h : a.createdAt = b.createdAt) : engGE a b := by
  unfold engGE
  rw [h]
  exact pdLe_refl _

theorem filter_orderedInsert_of_eq (k : PyDatetime) (a : EngagementInfo)
    (ha : a.createdAt = k) : ∀ l : List EngagementInfo,
    (List.orderedInsert engGE a l).filter (fun e => decide (e.createdAt = k))
      = a :: l.filter (fun e => decide (e.createdAt = k)) := by
  intro l
  induction l with
  | nil => simp [List.orderedInsert, List.filter, ha]
  | cons b t ih =>
    by_cases hr : engGE a b
    · rw [List.orderedInsert, if_pos hr]
      simp [List.filter_cons, ha]
    · rw [List.orderedInsert, if_neg hr]
      have hb : ¬(b.createdAt = k) := by
        intro hbk
        exact hr (engGE_of_eq (by rw [ha, hbk]))
      simp [List.filter_cons, hb, ih]

theorem filter_orderedInsert_of_ne (k : PyDatetime) (a : EngagementInfo)
    (ha : ¬ a.createdAt = k) : ∀ l : List EngagementInfo,
    (List.orderedInsert engGE a l).filter (fun e => decide (e.createdAt = k))
      = l.filter (fun e => decide (e.createdAt = k)) := by
  intro l
  induction l with
  | nil => simp [List.orderedInsert, List.filter, ha]
  | cons b t ih =>
    by_cases hr : engGE a b
    · rw [List.orderedInsert, if_pos hr]
      simp [List.filter_cons, ha]
    · rw [List.orderedInsert, if_neg hr]
      simp [List.filter_cons, ih]

theorem filter_insertionSort (k : PyDatetime) : ∀ l : List EngagementInfo,
    (List.insertionSort engGE l).filter (fun e => decide (e.createdAt = k))
      = l.filter (fun e => decide (e.createdAt = k)) := by
  intro l
  induction l with
  | nil => rfl
  | cons a t ih =>
    rw [List.insertionSort]
    by_cases ha : a.createdAt = k
    · rw [filter_orderedInsert_of_eq k a ha, ih]
      simp [List.filter_cons, ha]
    · rw [filter_orderedInsert_of_ne k a ha, ih]
      simp [List.filter_cons, ha]

/-! ## Provenance of createdAt values through the pipeline -/

theorem allEngs_createdAt (inp : EngInput) :
    ∀ e ∈ allEngs inp, ∃ ots : Option Nat, e.createdAt = mkCreatedAt ots := by
  intro e he
  unfold allEngs at he
  rcases List.mem_append.mp he with h | h
  · rcases List.mem_filterMap.mp h with ⟨raw, _, hf⟩
    split at hf
    · rw [Option.some.injEq] at hf
      subst hf
      exact ⟨raw.timestamp, rfl⟩
    · cases hf
  · rcases List.mem_flatten.mp h with ⟨sub, hsub, hesub⟩
    rcases List.mem_map.mp hsub with ⟨raws, _, hraws⟩
    subst hraws
    rcases List.mem_filterMap.mp hesub with ⟨raw, _, hf⟩
    split at hf
    · rw [Option.some.injEq] at hf
      subst hf
      exact ⟨raw.timestamp, rfl⟩
    · cases hf

theorem mem_out_createdAt (inp : EngInput) :
    ∀ e ∈ get_recent_engagements inp, ∃ ots : Option Nat, e.createdAt = mkCreatedAt ots := by
  intro e he
  unfold get_recent_engagements at he
  have h1 := List.mem_of_mem_take he
  have h2 := List.mem_of_mem_filter h1
  have h3 := (List.perm_insertionSort engGE (dedupValues (allEngs inp))).mem_iff.mp h2
  exact allEngs_createdAt inp e (dedup_mem _ e h3)

/-! ## What the rendering loop produces -/

theorem numberLines_length : ∀ (l : List EngagementInfo) (s : Nat),
    (numberLines s l).length = l.length := by
  intro l
  induction l with
  | nil => intro s; rfl
  | cons e t ih => intro s; simp [numberLines, ih]

theorem formatLoop_eq (limit : Nat) :
    ∀ (l : List EngagementInfo) (cntE cntC : Nat) (emails calls : List String),
    formatLoop limit l cntE cntC emails calls =
      ⟨emails ++ numberLines cntE ((l.filter (fun e => decide (e.type = "Email"))).take (limit - cntE)),
       calls ++ numberLines cntC ((l.filter (fun e => decide (e.type = "Call"))).take (limit - cntC))⟩ := by
  intro l
  induction l with
  | nil =>
    intro cntE cntC emails calls
    simp [formatLoop, numberLines]
  | cons e t ih =>
    intro cntE cntC emails calls
    rw [formatLoop]
    by_cases hE : e.type = "Email" ∧ cntE < limit
    · rw [if_pos hE]
      have hfE : (e :: t).filter (fun x => decide (x.type = "Email"))
          = e :: t.filter (fun x => decide (x.type = "Email")) := by
        simp [List.filter_cons, hE.1]
      have hneC : ¬(e.type = "Call") := by
        rw [hE.1]
        decide
      have hfC : (e :: t).filter (fun x => decide (x.type = "Call"))
          = t.filter (fun x => decide (x.type = "Call")) := by
        simp [List.filter_cons, hneC]
      rw [hfE, hfC]
      by_cases hbrk : limit ≤ cntE + 1 ∧ limit ≤ cntC
      · rw [if_pos hbrk]
        have h1 : limit - cntE = 1 := by omega
        have h2 : limit - cntC = 0 := by omega
        rw [h1, h2]
        simp [numberLines]
      · rw [if_neg hbrk]
        rw [ih (cntE + 1) cntC (emails ++ [digestLine (cntE + 1) e]) calls]
        have h1 : limit - cntE = (limit - (cntE + 1)) + 1 := by omega
        rw [h1]
        simp [numberLines, List.append_assoc]
    · rw [if_neg hE]
      by_cases hC : e.type = "Call" ∧ cntC < limit
      · rw [if_pos hC]
        have hneE : ¬(e.type = "Email") := by
          rw [hC.1]
          decide
        have hfE : (e :: t).filter (fun x => decide (x.type = "Email"))
            = t.filter (fun x => decide (x.type = "Email")) := by
          simp [List.filter_cons, hneE]
        have hfC : (e :: t).filter (fun x => decide (x.type = "Call"))
            = e :: t.filter (fun x => decide (x.type = "Call")) := by
          simp [List.filter_cons, hC.1]
        rw [hfE, hfC]
        by_cases hbrk : limit ≤ cntE ∧ limit ≤ cntC + 1
        · rw [if_pos hbrk]
          have h1 : limit - cntE = 0 := by omega
          have h2 : limit - cntC = 1 := by omega
          rw [h1, h2]
          simp [numberLines]
        · rw [if_neg hbrk]
          rw [ih cntE (cntC + 1) emails (calls ++ [digestLine (cntC + 1) e])]
          have h2 : limit - cntC = (limit - (cntC + 1)) + 1 := by omega
          rw [h2]
          simp [numberLines, List.append_assoc]
      · rw [if_neg hC]
        have hfE2 : ((e :: t).filter (fun x => decide (x.type = "Email"))).take (limit - cntE)
            = (t.filter (fun x => decide (x.type = "Email"))).take (limit - cntE) := by
          by_cases he : e.type = "Email"
          · have hc : ¬ cntE < limit := fun hlt => hE ⟨he, hlt⟩
            have h0 : limit - cntE = 0 := by omega
            simp [h0]
          · simp [List.filter_cons, he]
        have hfC2 : ((e :: t).filter (fun x => decide (x.type = "Call"))).take (limit - cntC)
            = (t.filter (fun x => decide (x.type = "Call"))).take (limit - cntC) := by
          by_cases hc : e.type = "Call"
          · have hcc : ¬ cntC < limit := fun hlt => hC ⟨hc, hlt⟩
            have h0 : limit - cntC = 0 := by omega
            simp [h0]
          · simp [List.filter_cons, hc]
        by_cases hskip : limit ≤ cntE ∧ limit ≤ cntC
        · rw [if_pos hskip]
          have h1 : limit - cntE = 0 := by omega
          have h2 : limit - cntC = 0 := by omega
          simp [h1, h2, numberLines]
        · rw [if_neg hskip]
          rw [ih cntE cntC emails calls]
          rw [hfE2, hfC2]

theorem format_eq (engs : List EngagementInfo) (limit : Nat) :
    format_engagement_summary engs limit =
      ⟨numberLines 0 ((engs.filter (fun e => decide (e.type = "Email"))).take limit),
       numberLines 0 ((engs.filter (fun e => decide (e.type = "Call"))).take limit)⟩ := by
  unfold format_engagement_summary
  rw [formatLoop_eq]
  simp

theorem format_emails_length (engs : List EngagementInfo) (limit : Nat) :
    (format_engagement_summary engs limit).emails.length
      = Nat.min limit ((engs.filter (fun e => decide (e.type = "Email"))).length) := by
  rw [format_eq]
  simp [numberLines_length, List.length_take]

theorem format_calls_length (engs : List EngagementInfo) (limit : Nat) :
    (format_engagement_summary engs limit).calls.length
      = Nat.min limit ((engs.filter (fun e => decide (e.type = "Call"))).length) := by
  rw [format_eq]
  simp [numberLines_length, List.length_take]

/-! ## Classification as a filter partition -/

theorem classify_foldl : ∀ (deals : List DealInfo) (b : DealBuckets),
    deals.foldl classifyStep b =
      ⟨b.won ++ deals.filter isWonDeal, b.lost ++ deals.filter isLostDeal,
       b.expansion ++ deals.filter isExpansionDeal,
       b.resurrected ++ deals.filter isResurrectedDeal,
       b.active ++ deals.filter isActiveDeal⟩ := by
  intro deals
  induction deals with
  | nil =>
    intro b
    cases b
    simp
  | cons d t ih =>
    intro b
    rw [List.foldl_cons, ih]
    by_cases h1 : pyIn "closed won" (pyLower d.stage) = true
    · simp [classifyStep, h1, List.filter_cons, isWonDeal, isLostDeal, isExpansionDeal,
        isResurrectedDeal, isActiveDeal, List.append_assoc]
    · by_cases h2 : pyIn "closed lost" (pyLower d.stage) = true
      · simp [classifyStep, h1, h2, List.filter_cons, isWonDeal, isLostDeal, isExpansionDeal,
          isResurrectedDeal, isActiveDeal, List.append_assoc]
      · by_cases h3 : pyIn "expansion" (pyLower d.stage) = true
        · simp [classifyStep, h1, h2, h3, List.filter_cons, isWonDeal, isLostDeal,
            isExpansionDeal, isResurrectedDeal, isActiveDeal, List.append_assoc]
        · by_cases h4 : pyIn "resurrected" (pyLower d.stage) = true
          · simp [classifyStep, h1, h2, h3, h4, List.filter_cons, isWonDeal, isLostDeal,
              isExpansionDeal, isResurrectedDeal, isActiveDeal, List.append_assoc]
          · simp [classifyStep, h1, h2, h3, h4, List.filter_cons, isWonDeal, isLostDeal,
              isExpansionDeal, isResurrectedDeal, isActiveDeal, List.append_assoc]

theorem classifyDeals_eq (deals : List DealInfo) :
    classifyDeals deals =
      ⟨deals.filter isWonDeal, deals.filter isLostDeal, deals.filter isExpansionDeal,
       deals.filter isResurrectedDeal, deals.filter isActiveDeal⟩ := by
  unfold classifyDeals
  rw [classify_foldl]
  rfl

theorem classify_partition_length (deals : List DealInfo) :
    (deals.filter isWonDeal).length + (deals.filter isLostDeal).length
      + (deals.filter isExpansionDeal).length + (deals.filter isResurrectedDeal).length
      + (deals.filter isActiveDeal).length = deals.length := by
  induction deals with
  | nil => rfl
  | cons d t ih =>
    by_cases h1 : pyIn "closed won" (pyLower d.stage) = true
    · simp only [List.filter_cons, isWonDeal, isLostDeal, isExpansionDeal, isResurrectedDeal,
        isActiveDeal, h1, Bool.not_true, Bool.false_and, Bool.and_false, if_true, if_false,
        Bool.not_false, Bool.true_and, List.length_cons]
      simp [h1]
      omega
    · by_cases h2 : pyIn "closed lost" (pyLower d.stage) = true
      · simp [List.filter_cons, isWonDeal, isLostDeal, isExpansionDeal, isResurrectedDeal,
          isActiveDeal, h1, h2]
        omega
      · by_cases h3 : pyIn "expansion" (pyLower d.stage) = true
        · simp [List.filter_cons, isWonDeal, isLostDeal, isExpansionDeal, isResurrectedDeal,
            isActiveDeal, h1, h2, h3]
          omega
        · by_cases h4 : pyIn "resurrected" (pyLower d.stage) = true
          · simp [List.filter_cons, isWonDeal, isLostDeal, isExpansionDeal, isResurrectedDeal,
              isActiveDeal, h1, h2, h3, h4]
            omega
          · simp [List.filter_cons, isWonDeal, isLostDeal, isExpansionDeal, isResurrectedDeal,
              isActiveDeal, h1, h2, h3, h4]
            omega

/-! ## Fallback chain helper lemmas -/

theorem pyOr_of_truthy {a : Option String} (b : Option String) (h : truthy a = true) :
    pyOr a b = a := by
  simp [pyOr, h]

theorem pyOr_of_falsy {a : Option String} (b : Option String) (h : truthy a = false) :
    pyOr a b = b := by
  simp [pyOr, h]

theorem pyOrStr_of_truthy {a : Option String} (dflt : String) (h : truthy a = true) :
    pyOrStr a dflt = a.getD "" := by
  simp [pyOrStr, h]

theorem pyOrStr_of_falsy {a : Option String} (dflt : String) (h : truthy a = false) :
    pyOrStr a dflt = dflt := by
  simp [pyOrStr, h]

theorem truthy_false_elim {a : Option String} (h : truthy a = false) :
    a = none ∨ a = some "" := by
  cases a with
  | none => exact Or.inl rfl
  | some s =>
    cases s with
    | mk data =>
      cases data with
      | nil => exact Or.inr rfl
      | cons c t => simp [truthy] at h

theorem strip_html_of_falsy {a : Option String} (h : truthy a = false) :
    strip_html a = "" := by
  rcases truthy_false_elim h with h1 | h1 <;> subst h1 <;> rfl

theorem strip_html_getD (a : Option String) :
    strip_html (some (a.getD "")) = strip_html a := by
  cases a <;> rfl

/-! ## Concrete scenario inputs -/

/-- Sixteen company-scope emails, all newer than every call. -/
def c1Emails : List RawEng := (List.range 16).map fun i =>
  { id := "e" ++ toString i, type := "EMAIL", timestamp := some (10000000 + 1000 * i),
    meta := mdEmpty }

/-- Ten company-scope calls, all older than every email. -/
def c1Calls : List RawEng := (List.range 10).map fun i =>
  { id := "c" ++ toString i, type := "CALL", timestamp := some (1000 + 1000 * i),
    meta := mdEmpty }

/-- An input whose deduplicated engagement set has 16 emails and 10 calls. -/
def c1Inp : EngInput := ⟨c1Emails ++ c1Calls, []⟩

/-- Five emails and five calls, all surviving into the capped output. -/
def c1wInp : EngInput :=
  ⟨((List.range 5).map fun i =>
      { id := "we" ++ toString i, type := "EMAIL", timestamp := some (10000000 + 1000 * i),
        meta := mdEmpty })
    ++ ((List.range 5).map fun i =>
      { id := "wc" ++ toString i, type := "CALL", timestamp := some (1000 + 1000 * i),
        meta := mdEmpty }), []⟩

/-- The cross-scope duplicate id scenario: the company scope sees id 42 as an
email, a contact scope sees the same id as a call. -/
def c2Inp : EngInput :=
  { companyRaws := [{ id := "42", type := "EMAIL", timestamp := some 1000,
                      meta := { mdEmpty with subject := some "Q3 check-in" } }],
    contactRaws := [[{ id := "42", type := "CALL", timestamp := some 2000,
                       meta := { mdEmpty with body := some "Discussed renewal" } }]] }

/-- The engagement record that survives deduplication in the c2Inp scenario. -/
def c2CallInfo : EngagementInfo :=
  { id := "42", type := "Call", createdAt := PyDatetime.fromtimestamp 2000,
    subject := "Discussed renewal" }

/-! ## Claim C1 -/

/-- C1 counterexample: an input whose deduplicated engagement set has 16
emails and 10 calls (both at least 10), yet the rendered digest has only 4
call lines, because get_recent_engagements caps the sorted list at 20 overall
before the per-kind limits run, and the 16 newer emails crowd out 6 calls. -/
theorem perKindTruncation_cex :
    ((dedupValues (allEngs c1Inp)).filter (fun e => decide (e.type = "Email"))).length = 16
    ∧ ((dedupValues (allEngs c1Inp)).filter (fun e => decide (e.type = "Call"))).length = 10
    ∧ (format_engagement_summary (get_recent_engagements c1Inp) 5).emails.length = 5
    ∧ (format_engagement_summary (get_recent_engagements c1Inp) 5).calls.length = 4 := by
  decide

/-- C1 (amended): whenever at least 5 Email-kind and at least 5 Call-kind
engagements are present in the list returned by get_recent_engagements (the
shared global cap of 20 can push a kind below that even when 10 of each
survive deduplication), the rendered digest has exactly 5 email lines and
exactly 5 call lines; and inside format_engagement_summary the limits are
per-kind: each list has length min 5 (count of that kind in its input),
independent of the other kind. -/
theorem perKindTruncation (inp : EngInput)
    (hE : 5 ≤ ((get_recent_engagements inp).filter (fun e => decide (e.type = "Email"))).length)
    (hC : 5 ≤ ((get_recent_engagements inp).filter (fun e => decide (e.type = "Call"))).length) :
    (format_engagement_summary (get_recent_engagements inp) 5).emails.length = 5
    ∧ (format_engagement_summary (get_recent_engagements inp) 5).calls.length = 5
    ∧ ∀ engs : List EngagementInfo,
        (format_engagement_summary engs 5).emails.length
          = Nat.min 5 ((engs.filter (fun e => decide (e.type = "Email"))).length)
        ∧ (format_engagement_summary engs 5).calls.length
          = Nat.min 5 ((engs.filter (fun e => decide (e.type = "Call"))).length) := by
  refine ⟨?_, ?_, fun engs => ⟨format_emails_length engs 5, format_calls_length engs 5⟩⟩
  · rw [format_emails_length]
    exact Nat.min_eq_left hE
  · rw [format_calls_length]
    exact Nat.min_eq_left hC

/-- C1 witness: the amended theorem applied to a concrete run with 5 emails
and 5 calls in the capped output. -/
theorem perKindTruncation_witness :
    (format_engagement_summary (get_recent_engagements c1wInp) 5).emails.length = 5
    ∧ (format_engagement_summary (get_recent_engagements c1wInp) 5).calls.length = 5 :=
  ⟨(perKindTruncation c1wInp (by decide) (by decide)).1,
   (perKindTruncation c1wInp (by decide) (by decide)).2.1⟩

/-! ## Claim C2 -/

/-- C2: deduplication keyed on the engagement id keeps each identifier
exactly once (the id list of the deduplicated output has no duplicates and
covers exactly the input ids), the record kept for an id is the last-seen one
in arrival order (company scope first, then contact scopes), and in the
concrete cross-scope scenario a company Email with id 42 that reappears as a
contact Call ends up with kind Call. -/
theorem dedupByIdLastWins (inp : EngInput) :
    ((dedupValues (allEngs inp)).map (fun e => e.id)).Nodup
    ∧ (∀ k : String,
        k ∈ (dedupValues (allEngs inp)).map (fun e => e.id)
          ↔ k ∈ (allEngs inp).map (fun e => e.id))
    ∧ (∀ e ∈ dedupValues (allEngs inp),
        ((allEngs inp).filter (fun x => decide (x.id = e.id))).getLast? = some e)
    ∧ (get_recent_engagements c2Inp).map (fun e => (e.id, e.type, e.subject))
        = [("42", "Call", "Discussed renewal")] := by
  refine ⟨?_, ?_, ?_, by decide⟩
  · rw [dedup_ids_eq_keys]
    exact pyDict_keys_nodup _
  · intro k
    rw [dedup_ids_eq_keys]
    exact pyDict_mem_keys _ k
  · intro e he
    rcases List.mem_map.mp he with ⟨p, hp, hpe⟩
    subst hpe
    have hid : p.2.id = p.1 := pyDict_fst_eq_id _ p hp
    rw [hid]
    exact pyDict_last_wins _ p hp

/-- C2 witness: the last-seen-wins clause applied to the concrete cross-scope
scenario, picking out the call record for id 42. -/
theorem dedupByIdLastWins_witness :
    ((allEngs c2Inp).filter (fun x => decide (x.id = c2CallInfo.id))).getLast?
      = some c2CallInfo :=
  (dedupByIdLastWins c2Inp).2.2.1 c2CallInfo (by decide)

/-! ## Claim C3 -/

/-- C3: the classification loop of the brief handler is the partition of the
input sequence by the five predicates that encode the case-insensitive
substring tests in priority order (closed won, closed lost, expansion,
resurrected, otherwise active). Each bucket is the order-preserving filter of
the input, the bucket sizes sum to the input size (exclusive and exhaustive),
and the result is a pure function of the input sequence. -/
theorem dealClassification (deals : List DealInfo) :
    classifyDeals deals =
      ⟨deals.filter isWonDeal, deals.filter isLostDeal, deals.filter isExpansionDeal,
       deals.filter isResurrectedDeal, deals.filter isActiveDeal⟩
    ∧ (deals.filter isWonDeal).length + (deals.filter isLostDeal).length
        + (deals.filter isExpansionDeal).length + (deals.filter isResurrectedDeal).length
        + (deals.filter isActiveDeal).length = deals.length :=
  ⟨classifyDeals_eq deals, classify_partition_length deals⟩

/-! ## Claim C4 -/

/-- C4: the output of get_recent_engagements is pairwise non-increasing by
creation time; the sort is stable (elements with any fixed creation time keep
their pre-sort order, stated as a filter identity on the sorted stage); a
missing raw timestamp becomes datetime.min without any failure path; min is a
lower bound of every converted timestamp, and consequently min-dated
engagements can only be followed by min-dated ones in the output, so they
sort to the end. -/
theorem engagementOrdering (inp : EngInput) :
    (get_recent_engagements inp).Pairwise engGE
    ∧ (∀ k : PyDatetime,
        (List.insertionSort engGE (dedupValues (allEngs inp))).filter
            (fun e => decide (e.createdAt = k))
          = (dedupValues (allEngs inp)).filter (fun e => decide (e.createdAt = k)))
    ∧ mkCreatedAt none = PyDatetime.min
    ∧ (∀ ts : Nat, pdLe PyDatetime.min (PyDatetime.fromtimestamp ts) = true)
    ∧ (get_recent_engagements inp).Pairwise
        (fun a b => a.createdAt = PyDatetime.min → b.createdAt = PyDatetime.min) := by
  have hsorted : (List.insertionSort engGE (dedupValues (allEngs inp))).Pairwise engGE :=
    List.sorted_insertionSort engGE _
  have hsub : (get_recent_engagements inp).Sublist
      (List.insertionSort engGE (dedupValues (allEngs inp))) := by
    unfold get_recent_engagements
    exact (List.take_sublist _ _).trans (List.filter_sublist _)
  have hout : (get_recent_engagements inp).Pairwise engGE :=
    List.Pairwise.sublist hsub hsorted
  refine ⟨hout, fun k => filter_insertionSort k _, rfl, pdLe_min_fromtimestamp, ?_⟩
  apply List.Pairwise.imp_of_mem ?_ hout
  intro a b ha hb hge hmin
  rcases mem_out_createdAt inp b hb with ⟨ots, hbo⟩
  rw [hbo]
  apply mkCreatedAt_eq_min
  rw [← hbo]
  unfold engGE at hge
  rw [hmin] at hge
  exact hge

/-! ## Claim C5 -/

/-- A metadata value on which the fallback chain commits to a body preview
that strips to nothing while the raw body holds text. -/
def c5Md : Metadata := { mdEmpty with bodyPreview := some "<b></b>", body := some "hello" }

/-- C5 counterexample: the extractor returns the no-subject literal even
though the body source is non-empty, because the fallback chain commits to
the first raw-truthy source (the body preview) before HTML stripping, and
that source strips to the empty string. -/
theorem emailSubjectFallback_cex :
    extract_email_subject c5Md = "(no subject)"
    ∧ c5Md.body = some "hello"
    ∧ truthy c5Md.body = true := by
  decide

/-- C5 (amended): the extractor tries the explicit subject, then the
alternate subject, then body-preview, then raw body, then raw text; the
fallback value is the first raw-non-empty one, HTML-stripped and truncated to
60 characters, and the no-subject literal is returned when the subject path
is not taken and the chosen fallback strips to nothing — in particular
whenever every source is empty, but possibly also when a later source is
non-empty. The spec example with a blank subject and a bold body preview
still renders Hi there. -/
theorem emailSubjectFallback :
    extract_email_subject { mdEmpty with subject := some "", bodyPreview := some "<b>Hi</b> there" }
        = "Hi there"
    ∧ (∀ md : Metadata, truthy md.subject = false → truthy md.emailSubject = false →
        truthy md.bodyPreview = false → truthy md.body = false → truthy md.text = false →
        extract_email_subject md = "(no subject)")
    ∧ (∀ md : Metadata, truthy md.subject = false → truthy md.emailSubject = false →
        truthy md.bodyPreview = true →
        extract_email_subject md =
          (if String.mk ((strip_html md.bodyPreview).data.take 60) = "" then "(no subject)"
           else String.mk ((strip_html md.bodyPreview).data.take 60)))
    ∧ (∀ md : Metadata, truthy md.subject = true →
        (pyStrip (md.subject.getD "").data).isEmpty = false →
        extract_email_subject md = strip_html md.subject)
    ∧ (∀ md : Metadata, truthy md.subject = false → truthy md.emailSubject = true →
        (pyStrip (md.emailSubject.getD "").data).isEmpty = false →
        extract_email_subject md = strip_html md.emailSubject)
    ∧ (∀ md : Metadata, truthy md.subject = false → truthy md.emailSubject = false →
        truthy md.bodyPreview = false → truthy md.body = true →
        extract_email_subject md =
          (if String.mk ((strip_html md.body).data.take 60) = "" then "(no subject)"
           else String.mk ((strip_html md.body).data.take 60)))
    ∧ (∀ md : Metadata, truthy md.subject = false → truthy md.emailSubject = false →
        truthy md.bodyPreview = false → truthy md.body = false → truthy md.text = true →
        extract_email_subject md =
          (if String.mk ((strip_html md.text).data.take 60) = "" then "(no subject)"
           else String.mk ((strip_html md.text).data.take 60))) := by
  refine ⟨by decide, ?_, ?_, ?_, ?_, ?_, ?_⟩
  · intro md hs he hb hbo ht
    simp only [extract_email_subject]
    rw [pyOr_of_falsy _ hs, pyOr_of_falsy _ hb, pyOr_of_falsy _ hbo, pyOrStr_of_falsy _ ht, he]
    simp
    decide
  · intro md hs he hbp
    simp only [extract_email_subject]
    rw [pyOr_of_falsy _ hs, he]
    simp only [Bool.false_and, Bool.false_eq_true, if_false]
    rw [pyOr_of_truthy _ hbp, pyOr_of_truthy _ hbp, pyOrStr_of_truthy _ hbp, strip_html_getD]
  · intro md hs hstrip
    simp only [extract_email_subject]
    rw [pyOr_of_truthy _ hs, hs, hstrip]
    simp
  · intro md hs he hstrip
    simp only [extract_email_subject]
    rw [pyOr_of_falsy _ hs, he, hstrip]
    simp
  · intro md hs he hbp hbody
    simp only [extract_email_subject]
    rw [pyOr_of_falsy _ hs, he]
    simp only [Bool.false_and, Bool.false_eq_true, if_false]
    rw [pyOr_of_falsy _ hbp, pyOr_of_truthy _ hbody, pyOrStr_of_truthy _ hbody, strip_html_getD]
  · intro md hs he hbp hbody htext
    simp only [extract_email_subject]
    rw [pyOr_of_falsy _ hs, he]
    simp only [Bool.false_and, Bool.false_eq_true, if_false]
    rw [pyOr_of_falsy _ hbp, pyOr_of_falsy _ hbody, pyOrStr_of_truthy _ htext, strip_html_getD]

/-- C5 witness: every step of the amended chain applied at concrete metadata:
the empty dictionary yields the no-subject literal; a bold body preview
renders its stripped truncation; a truthy non-whitespace subject wins; the
alternate subject field wins when the subject is empty; the raw body and raw
text sources are used, stripped and truncated, when everything before them is
empty. -/
theorem emailSubjectFallback_witness :
    extract_email_subject mdEmpty = "(no subject)"
    ∧ extract_email_subject { mdEmpty with bodyPreview := some "<b>Hi</b> there" } = "Hi there"
    ∧ extract_email_subject { mdEmpty with subject := some "Quarterly sync" } = "Quarterly sync"
    ∧ extract_email_subject { mdEmpty with emailSubject := some "Renewal terms" } = "Renewal terms"
    ∧ extract_email_subject { mdEmpty with body := some "<p>Plain body</p>" } = "Plain body"
    ∧ extract_email_subject { mdEmpty with text := some "raw text value" } = "raw text value" := by
  refine ⟨?_, ?_, ?_, ?_, ?_, ?_⟩
  · exact (emailSubjectFallback).2.1 mdEmpty (by decide) (by decide) (by decide) (by decide)
      (by decide)
  · have h := (emailSubjectFallback).2.2.1 { mdEmpty with bodyPreview := some "<b>Hi</b> there" }
      (by decide) (by decide) (by decide)
    rw [h]
    decide
  · have h := (emailSubjectFallback).2.2.2.1 { mdEmpty with subject := some "Quarterly sync" }
      (by decide) (by decide)
    rw [h]
    decide
  · have h := (emailSubjectFallback).2.2.2.2.1 { mdEmpty with emailSubject := some "Renewal terms" }
      (by decide) (by decide) (by decide)
    rw [h]
    decide
  · have h := (emailSubjectFallback).2.2.2.2.2.1 { mdEmpty with body := some "<p>Plain body</p>" }
      (by decide) (by decide) (by decide) (by decide)
    rw [h]
    decide
  · have h := (emailSubjectFallback).2.2.2.2.2.2 { mdEmpty with text := some "raw text value" }
      (by decide) (by decide) (by decide) (by decide) (by decide)
    rw [h]
    decide

/-! ## Claim C6 -/

/-- Abbreviated month names for the date format the spec describes. -/
def monthAbbrev : Nat → String
  | 1 => "Jan"
  | 2 => "Feb"
  | 3 => "Mar"
  | 4 => "Apr"
  | 5 => "May"
  | 6 => "Jun"
  | 7 => "Jul"
  | 8 => "Aug"
  | 9 => "Sep"
  | 10 => "Oct"
  | 11 => "Nov"
  | 12 => "Dec"
  | _ => "???"

/-- Modelled from the spec: the digest date format named by the rendering
rule (Mon DD, YYYY), for comparison with the rendering the source
implements. -/
def specMonDayYear (d : PyDatetime) : String :=
  monthAbbrev d.month ++ " " ++ padNum 2 d.day ++ ", " ++ padNum 4 d.year

/-- A concrete kept email engagement dated 2024-01-01. -/
def c6Eng : EngagementInfo :=
  { id := "1", type := "Email", createdAt := PyDatetime.fromtimestamp 1704067200000,
    subject := "Q3 check-in" }

/-- C6 counterexample: the rendered line uses the ISO year-month-day form of
the strftime call in the source, not the Mon DD, YYYY form the claim
states. -/
theorem digestLineRendering_cex :
    (format_engagement_summary [c6Eng] 5).emails = ["1. **2024-01-01** – Q3 check-in"]
    ∧ "1. **2024-01-01** – Q3 check-in"
        ≠ "1. **" ++ specMonDayYear c6Eng.createdAt ++ "** – " ++ c6Eng.subject := by
  decide

/-- C6 (amended): for every kept engagement the digest holds exactly one line
of the form ordinal dot, bold year-month-day date, dash, subject-or-outcome,
with the date in the ISO form of the strftime format in the source, and the
ordinal restarting at 1 independently for the email list and the call list
(each list numbers its own kept engagements from 1 in order). -/
theorem digestLineRendering (engs : List EngagementInfo) (limit : Nat) :
    format_engagement_summary engs limit =
      ⟨numberLines 0 ((engs.filter (fun e => decide (e.type = "Email"))).take limit),
       numberLines 0 ((engs.filter (fun e => decide (e.type = "Call"))).take limit)⟩
    ∧ (∀ (n : Nat) (e : EngagementInfo),
        digestLine n e = toString n ++ ". **" ++ strftimeYmd e.createdAt ++ "** – " ++ e.subject) :=
  ⟨format_eq engs limit, fun _ _ => rfl⟩

/-! ## Claim C7 -/

/-- C7: amount parsing strips commas and parses the result as a decimal
number, so the locale-formatted 1,200.50 parses to 1200.50 exactly; the
unparsable N/A and a missing amount both default to 0.0; and for every input
string the parser is total, returning the parsed value or the 0 default,
never failing. -/
theorem amountParsing :
    parseAmount (some "1,200.50") = 2401 / 2
    ∧ parseAmount (some "N/A") = 0
    ∧ parseAmount none = 0
    ∧ stripCommas "1,200.50" = "1200.50"
    ∧ (∀ s : String, parseAmount (some s)
        = (pyFloat (String.mk (pyStrip (stripCommas s).data))).getD 0) := by
  refine ⟨?_, ?_, ?_, by decide, ?_⟩
  · have h : pyFloatRaw (pyStrip (stripCommas "1,200.50").data) = some (false, 120050, 2) := by
      decide
    simp only [parseAmount, pyFloat, Option.getD, h, Option.map]
    norm_num [ratOfRaw]
  · have h : pyFloatRaw (pyStrip (stripCommas "N/A").data) = none := by decide
    simp [parseAmount, pyFloat, h]
  · have h : pyFloatRaw (pyStrip (stripCommas "0").data) = some (false, 0, 0) := by decide
    simp [parseAmount, pyFloat, h, ratOfRaw]
  · intro s
    simp only [parseAmount, pyFloat, Option.getD_some]
    cases h : pyFloatRaw (pyStrip (stripCommas s).data) <;> simp [h]

/-! ## Claim C8 -/

/-- C8: when the email query parameter is absent or empty, the brief handler
builds the placeholder contact with empty identifier, names, email and job
title, for every database (so the lookup result is never consulted) and
without any error; when an email is supplied and the search yields zero
matches, the request fails with the 404 contact-not-found error. -/
theorem optionalEmailPolicy :
    (∀ db : List RawContact, briefContact db none = .ok placeholderContact)
    ∧ (∀ db : List RawContact, briefContact db (some "") = .ok placeholderContact)
    ∧ (placeholderContact.id = "" ∧ placeholderContact.firstname = ""
        ∧ placeholderContact.lastname = "" ∧ placeholderContact.email = some ""
        ∧ placeholderContact.jobtitle = some "")
    ∧ (∀ (db : List RawContact) (e : String), ¬ e = "" → searchByEmail db e = [] →
        briefContact db (some e) = .error (.notFound "Contact not found")) := by
  refine ⟨fun db => rfl, fun db => rfl, by decide, ?_⟩
  intro db e he hs
  cases e with
  | mk data =>
    cases data with
    | nil => exact absurd rfl he
    | cons c t =>
      have h1 : briefContact db (some (String.mk (c :: t)))
          = get_contact_by_email db (String.mk (c :: t)) := by
        simp [briefContact, truthy]
      rw [h1]
      unfold get_contact_by_email
      rw [hs]
      simp

/-- C8 witness: the not-found clause applied to the empty database with a
concrete email, and the placeholder clause applied to the empty database. -/
theorem optionalEmailPolicy_witness :
    briefContact [] (some "a@b.co") = .error (.notFound "Contact not found")
    ∧ briefContact [] none = .ok placeholderContact :=
  ⟨(optionalEmailPolicy).2.2.2 [] "a@b.co" (by decide) (by decide),
   (optionalEmailPolicy).1 []⟩

/-! ## Claim C9 -/

/-- C9: for every input, the list returned by get_recent_engagements holds at
most 20 engagements in total across both kinds (the shared cap applied to the
sorted list before the per-kind digest limits), and every returned engagement
has kind Email or Call. -/
theorem globalEngagementCap (inp : EngInput) :
    (get_recent_engagements inp).length ≤ 20
    ∧ (get_recent_engagements inp).all
        (fun e => decide (e.type = "Email") || decide (e.type = "Call")) = true := by
  constructor
  · unfold get_recent_engagements
    exact List.length_take_le _ _
  · rw [List.all_eq_true]
    intro e he
    unfold get_recent_engagements at he
    have h1 := List.mem_of_mem_take he
    have h2 := List.of_mem_filter h1
    simpa using h2

/-! ## Claim C10 -/

/-- C10: the call-outcome extractor consults the body field, then the notes
field, then also the title field, HTML-strips the first truthy value, and
returns the no-outcome literal when all three are absent or empty — it is
total, in particular on the empty metadata dictionary, and the title field
really is consulted. -/
theorem callOutcomeExtraction :
    extract_call_outcome mdEmpty = "(no outcome logged)"
    ∧ extract_call_outcome { mdEmpty with title := some "Left voicemail" } = "Left voicemail"
    ∧ (∀ md : Metadata, truthy md.body = false → truthy md.notes = false →
        truthy md.title = false → extract_call_outcome md = "(no outcome logged)")
    ∧ (∀ md : Metadata, truthy md.body = true →
        extract_call_outcome md =
          (if strip_html md.body = "" then "(no outcome logged)" else strip_html md.body))
    ∧ (∀ md : Metadata, truthy md.body = false → truthy md.notes = true →
        extract_call_outcome md =
          (if strip_html md.notes = "" then "(no outcome logged)" else strip_html md.notes)) := by
  refine ⟨by decide, by decide, ?_, ?_, ?_⟩
  · intro md hb hn ht
    simp only [extract_call_outcome]
    rw [pyOr_of_falsy _ hb, pyOr_of_falsy _ hn, strip_html_of_falsy ht]
    decide
  · intro md hb
    simp only [extract_call_outcome]
    rw [pyOr_of_truthy _ hb, pyOr_of_truthy _ hb]
  · intro md hb hn
    simp only [extract_call_outcome]
    rw [pyOr_of_falsy _ hb, pyOr_of_truthy _ hn]

/-- C10 witness: the body-first and notes-second clauses applied at concrete
metadata with markup, and the all-empty clause applied at the empty
dictionary. -/
theorem callOutcomeExtraction_witness :
    extract_call_outcome { mdEmpty with notes := some "<p>Busy</p>" } = "Busy"
    ∧ extract_call_outcome { mdEmpty with body := some "<i>ok</i>" } = "ok"
    ∧ extract_call_outcome { mdEmpty with subject := some "x" } = "(no outcome logged)" := by
  refine ⟨?_, ?_, ?_⟩
  · have h := (callOutcomeExtraction).2.2.2.2 { mdEmpty with notes := some "<p>Busy</p>" }
      (by decide) (by decide)
    rw [h]
    decide
  · have h := (callOutcomeExtraction).2.2.2.1 { mdEmpty with body := some "<i>ok</i>" }
      (by decide)
    rw [h]
    decide
  · exact (callOutcomeExtraction).2.2.1 { mdEmpty with subject := some "x" }
      (by decide) (by decide) (by decide)

end HubspotBrief
